import Mathlib

/-!
# Brandscore audit orchestration — shallow embedding

This file embeds the audit-orchestration core of the repository
(`src/services/geminiService.ts`) in Lean 4 and settles the frozen claims
about it.

Modelling conventions:
* JavaScript strings are Lean `String`s; the JS builtins used by the code
  (`trim`, `endsWith`, `indexOf`, `lastIndexOf`, `substring`, `toLowerCase`)
  are re-implemented on the underlying `List Char`.
* The external services (PageSpeed HTTP endpoint, the generative-AI provider,
  and the `JSON.parse` builtin) are oracles: their behaviour in one audit run
  is a parameter (`FetchOutcome`, `AIOutcome`, `jsonParse`) of the embedding.
* TypeScript `throw`/`try`/`catch` is `Except String`: a component that can
  raise returns `Except`, and a `catch` is an explicit `match` on it.
  The top-level orchestration returns `Except String AuditResult` so that
  "never throws" is a provable statement rather than a typing accident.
* `setTimeout`-based delays and the number of `fetch` network calls are
  recorded in explicit traces (`PsiTrace`, `AiTrace`): the source awaits
  `delay(ms)`; we record the `ms` values in order.
* Numbers: lighthouse category scores (0–1 floats in the JSON body) are `ℚ`;
  all derived scores are `Int` (`Math.round` is `⌊q + 1/2⌋`, its exact
  behaviour on halves). JS truthiness on numbers/strings (`x || d`) is
  modelled by `jsOrInt` / `jsOrStr` (`0`, `""` and absent are falsy).
* The prompt string built in step 4 of `performBrandAudit` flows only into
  the external model call, whose behaviour is already an oracle parameter,
  so the prompt text itself is not re-transcribed.
-/

namespace Brandscore

/-! ## JS string primitives -/

/-- The whitespace characters stripped by `String.prototype.trim`
(ASCII whitespace plus NBSP; the further Unicode space characters do not
occur in any statement below). -/
def jsWhitespace (c : Char) : Bool :=
  c == ' ' || c == '\t' || c == '\n' || c == '\r' ||
  c == '\x0b' || c == '\x0c' || c == '\u00A0'

/-- Test `listStartsWith pat l` : does `l` start with `pat`? -/
def listStartsWith : List Char → List Char → Bool
  | [], _ => true
  | _ :: _, [] => false
  | p :: ps, c :: cs => p == c && listStartsWith ps cs

/-- Drop the longest suffix of `l` all of whose characters satisfy `p`. -/
def dropTrailing (p : Char → Bool) (l : List Char) : List Char :=
  (l.reverse.dropWhile p).reverse

/-- JS `String.prototype.trim`. -/
def jsTrim (s : String) : String :=
  ⟨dropTrailing jsWhitespace (s.data.dropWhile jsWhitespace)⟩

/-- The `while (normalized.endsWith('/')) normalized = normalized.slice(0, -1)`
loop of `normalizeUrl`. -/
def stripTrailingSlashes (s : String) : String :=
  ⟨dropTrailing (fun c => c == '/') s.data⟩

/-- The test `normalized.match(/^https?:\/\//)` of `normalizeUrl`. -/
def startsWithScheme (s : String) : Bool :=
  listStartsWith "http://".data s.data || listStartsWith "https://".data s.data

/-- Source `normalizeUrl` (geminiService.ts, lines 12–21): trim, strip all trailing
slashes, and prepend `https://` when no `http(s)://` scheme is present. -/
def normalizeUrl (url : String) : String :=
  let normalized := stripTrailingSlashes (jsTrim url)
  if startsWithScheme normalized then normalized else "https://" ++ normalized

/-- ASCII lower-casing, the fragment of `String.prototype.toLowerCase`
relevant to signal labels. -/
def jsToLowerChar (c : Char) : Char :=
  if 'A' ≤ c ∧ c ≤ 'Z' then Char.ofNat (c.toNat + 32) else c

/-- JS `String.prototype.toLowerCase` (ASCII fragment). -/
def jsToLower (s : String) : String :=
  ⟨s.data.map jsToLowerChar⟩

/-! ## Data model (`src/types` as used by the service) -/

/-- Status union `'good' | 'warning' | 'critical'`. -/
inductive SignalStatus where
  | good
  | warning
  | critical
deriving DecidableEq, Repr

/-- Record `TechnicalSignal` of the source's type module. -/
structure TechnicalSignal where
  label : String
  value : String
  status : SignalStatus
deriving DecidableEq, Repr

/-- Record `CategoryAnalysis` of the source's type module. -/
structure CategoryAnalysis where
  title : String
  score : Int
  diagnostic : String
  evidence : List String
  strategy : String
deriving DecidableEq, Repr

/-- The `perceptionGap` component of `AuditResult`. -/
structure PerceptionGap where
  detected : Bool
  verdict : String
  details : String
deriving DecidableEq, Repr

/-- Record `AuditResult`.  Its `groundingUrls` entries are `Option String` because the
source maps `c.web?.uri` without filtering, so `undefined` entries can occur
in the runtime array. -/
structure AuditResult where
  momentumScore : Int
  businessContext : String
  executiveSummary : String
  technicalSignals : List TechnicalSignal
  categories : List CategoryAnalysis
  perceptionGap : PerceptionGap
  groundingUrls : List (Option String)
deriving DecidableEq, Repr

/-- Record `BrandInfo`. -/
structure BrandInfo where
  name : String
  url : String
deriving DecidableEq, Repr

/-- Record `UserResponse`. -/
structure UserResponse where
  questionId : Int
  answer : Int
deriving DecidableEq, Repr

/-! ## JS truthiness helpers -/

/-- JS `v || d` for a number field that may be absent: `undefined` and `0` are
falsy. -/
def jsOrInt (v : Option Int) (d : Int) : Int :=
  match v with
  | none => d
  | some n => if n = 0 then d else n

/-- JS `v || d` for a string field that may be absent: `undefined` and `""` are
falsy. -/
def jsOrStr (v : Option String) (d : String) : String :=
  match v with
  | none => d
  | some s => if s = "" then d else s

/-- JS `Math.round` on an exact rational. -/
def jsRound (q : ℚ) : Int := ⌊q + 1/2⌋

/-! ## PageSpeed fetcher (`fetchPageSpeedData`, geminiService.ts lines 40–179) -/

/-- The `PsiResult` interface. -/
structure PsiResult where
  success : Bool
  perfScore : Int
  seoScore : Int
  lcp : String
  cls : String
  fcp : String
  techStack : List String
  bugs : List String
  error : Option String
  isFallback : Option Bool
deriving DecidableEq, Repr

/-- The `lighthouseResult.categories` object of the provider's JSON body:
`performance?.score` and `seo?.score` are 0–1 floats when present
(`none` models an absent `performance`/`seo` object or an absent/null
`score`). -/
structure PsiCategories where
  performanceScore : Option ℚ
  seoScore : Option ℚ
deriving DecidableEq, Repr

/-- The slice of `lighthouseResult` the source reads.  `categories` is
`Option` because the source accesses `lighthouse.categories.performance`
without optional chaining, so an absent `categories` raises a `TypeError`
(caught by the outer `try`).  `lcp`/`cls`/`fcp` collapse the chains
`audits?.['…']?.displayValue`; `stackPacks` the titles of
`lighthouse.stackPacks`. -/
structure PsiLighthouse where
  categories : Option PsiCategories
  lcp : Option String
  cls : Option String
  fcp : Option String
  stackPacks : Option (List String)
deriving DecidableEq, Repr

/-- The provider's JSON response body (`data`). -/
structure PsiData where
  lighthouseResult : Option PsiLighthouse
deriving DecidableEq, Repr

/-- Oracle: what one `fetch` of the PageSpeed endpoint does.
`fthrow` is a network error / 20s-timeout abort (the promise rejects),
`httpError` a non-2xx response with its status and extracted error text,
`ok` a 2xx response with JSON body `data`. -/
inductive FetchOutcome where
  | fthrow (msg : String)
  | httpError (status : Int) (text : String)
  | ok (data : PsiData)
deriving Repr

/-- What `performFetch` returns when it does not throw: either the
`{ error: true, status, text }` marker object or the JSON body. -/
inductive FetchReturn where
  | errObj (status : Int) (text : String)
  | dataObj (data : PsiData)
deriving Repr

/-- Execution trace of `fetchPageSpeedData`: how many network requests were
issued and which `delay(ms)` waits were awaited, in order. -/
structure PsiTrace where
  networkCalls : Nat
  waits : List Nat
deriving DecidableEq, Repr

/-- The inner `performFetch(useKey)` helper (lines 60–104).  With `useKey`
and no configured key it throws `MISSING_KEY` before any network call;
otherwise it performs one `fetch` whose behaviour is the oracle `o`.
Returns the (possibly throwing) result together with the number of network
calls made. -/
def performFetch (key : String) (useKey : Bool) (o : FetchOutcome) :
    Except String FetchReturn × Nat :=
  if useKey ∧ key = "" then (.error "MISSING_KEY", 0)
  else
    match o with
    | .fthrow msg => (.error msg, 1)
    | .httpError status text => (.ok (.errObj status text), 1)
    | .ok data => (.ok (.dataObj data), 1)

/-- The failure value built by the outer `catch` of `fetchPageSpeedData`
(lines 166–178). -/
def psiFailure (msg : String) : PsiResult :=
  { success := false, perfScore := -1, seoScore := -1,
    lcp := "?", cls := "?", fcp := "?",
    techStack := [], bugs := [], error := some msg, isFallback := some true }

/-- Expression `lighthouse.categories.X?.score ? Math.round(score * 100) : -1`:
an absent or `0` score is falsy and yields `-1`. -/
def categoryScore (score : Option ℚ) : Int :=
  match score with
  | none => -1
  | some q => if q = 0 then -1 else jsRound (q * 100)

/-- The extraction step of `fetchPageSpeedData` (lines 145–164), applied to
a received JSON body.  Throws (to the outer `catch`) when `lighthouseResult`
is absent, or — as a JS `TypeError` — when `categories` is absent. -/
def extractPsi (data : PsiData) : PsiResult :=
  match data.lighthouseResult with
  | none => psiFailure "No lighthouse data"
  | some lighthouse =>
    match lighthouse.categories with
    | none => psiFailure "TypeError: Cannot read properties of undefined"
    | some cats =>
      { success := true,
        perfScore := categoryScore cats.performanceScore,
        seoScore := categoryScore cats.seoScore,
        lcp := jsOrStr lighthouse.lcp "N/A",
        cls := jsOrStr lighthouse.cls "N/A",
        fcp := jsOrStr lighthouse.fcp "N/A",
        techStack := lighthouse.stackPacks.getD [],
        bugs := [], error := none, isFallback := none }

/-- The message of the `throw new Error(\x60PSI Failed: ...\x60)` on a failed
anonymous retry: `attempt2?.status || 'Unknown'` and `attempt2?.text || ''`. -/
def psiFailedMsg (status : Int) (text : String) : String :=
  "PSI Failed: " ++ (if status = 0 then "Unknown" else toString status)
    ++ " - " ++ text

/-- Source `fetchPageSpeedData` (lines 57–179) over the two fetch oracles `o1`
(authenticated attempt) and `o2` (anonymous retry).  Total: every internal
throw is absorbed by the outer `catch` into `psiFailure`.  Also returns the
network/wait trace. -/
def fetchPageSpeedData (key : String) (o1 o2 : FetchOutcome) :
    PsiResult × PsiTrace :=
  let (r1, n1) := performFetch key true o1
  -- `try { attempt1 = await performFetch(true) } catch { ... }`
  let attempt1 : Option FetchReturn :=
    match r1 with
    | .ok fr => some fr
    | .error _ => none
  match attempt1 with
  | some (.dataObj data) => (extractPsi data, ⟨n1, []⟩)
  | other =>
    -- `const status = attempt1?.status || 0`
    let status : Int :=
      match other with
      | some (.errObj s _) => s
      | _ => 0
    let waitTime : Nat := if status = 403 then 500 else if status = 429 then 5000 else 1000
    let (r2, n2) := performFetch key false o2
    match r2 with
    | .error msg => (psiFailure msg, ⟨n1 + n2, [waitTime]⟩)
    | .ok (.errObj s t) => (psiFailure (psiFailedMsg s t), ⟨n1 + n2, [waitTime]⟩)
    | .ok (.dataObj data) => (extractPsi data, ⟨n1 + n2, [waitTime]⟩)

/-! ## AI report generation (`performBrandAudit`, geminiService.ts lines 183–327) -/

/-- Character `'\x7b'` (written via `Char.ofNat` to keep brace characters out of
literals). -/
def lbrace : Char := Char.ofNat 123

/-- Character `'\x7d'`. -/
def rbrace : Char := Char.ofNat 125

/-- JS `String.prototype.indexOf` for a single character (as an index into the
character list). -/
def idxOfChar (l : List Char) (c : Char) : Option Nat :=
  l.findIdx? (· == c)

/-- JS `String.prototype.lastIndexOf` for a single character. -/
def lastIdxOfChar (l : List Char) (c : Char) : Option Nat :=
  (l.reverse.findIdx? (· == c)).map (fun i => l.length - 1 - i)

/-- JS `String.prototype.substring` (clamps and swaps its endpoints). -/
def jsSubstring (s : String) (a b : Nat) : String :=
  ⟨(s.data.drop (min a b)).take (max a b - min a b)⟩

/-- The shape of the fields `performBrandAudit` reads off the object returned
by `JSON.parse` of the model's text (`none` = field absent or not of the
inspected type). -/
structure ParsedAudit where
  momentumScore : Option Int
  businessContext : Option String
  executiveSummary : Option String
  technicalSignals : Option (List TechnicalSignal)
  categories : Option (List CategoryAnalysis)
  perceptionGap : Option PerceptionGap
deriving Repr

/-- Shape `{ web?: { uri?: string } }` of a grounding chunk. -/
structure WebSource where
  uri : Option String
deriving DecidableEq, Repr

/-- One entry of `candidates[0].groundingMetadata.groundingChunks`. -/
structure GroundingChunk where
  web : Option WebSource
deriving DecidableEq, Repr

/-- Oracle: what one `ai.models.generateContent` call does. `athrow` is a
provider error (rejection); `success` carries `result.text` (absent
modelled as `none`) and the chain
`candidates?.[0]?.groundingMetadata?.groundingChunks`. -/
inductive AIOutcome where
  | athrow (msg : String)
  | success (text : Option String) (groundingChunks : Option (List GroundingChunk))
deriving Repr

/-- Source `cleanAndParseJSON` (lines 23–34), over the `JSON.parse` oracle
`jsonParse`: slice from the first brace to the last closing brace, try to
parse, on failure strip markdown fences and retry; throws when no brace pair
exists or both parses fail. -/
def cleanAndParseJSON (jsonParse : String → Option ParsedAudit) (text : String) :
    Except String ParsedAudit :=
  match idxOfChar text.data lbrace, lastIdxOfChar text.data rbrace with
  | some start, some stop =>
    let jsonStr := jsSubstring text start (stop + 1)
    match jsonParse jsonStr with
    | some v => .ok v
    | none =>
      let cleaned := (jsonStr.replace "```json" "").replace "```" ""
      match jsonParse cleaned with
      | some v => .ok v
      | none => .error "JSON.parse failed"
  | _, _ => .error "Response does not contain a JSON object"

/-- Step 3 of `performBrandAudit` (lines 200–220): the "Mobile Speed" signal. -/
def mobileSpeedSignal (psi : PsiResult) : TechnicalSignal :=
  { label := "Mobile Speed",
    value := toString psi.perfScore ++ "/100",
    status := if psi.perfScore ≥ 90 then .good
              else if psi.perfScore ≥ 50 then .warning
              else .critical }

/-- The "SEO Score" signal. -/
def seoScoreSignal (psi : PsiResult) : TechnicalSignal :=
  { label := "SEO Score",
    value := toString psi.seoScore ++ "/100",
    status := if psi.seoScore ≥ 90 then .good
              else if psi.seoScore ≥ 70 then .warning
              else .critical }

/-- The "Tech Stack" signal. -/
def techStackSignal (psi : PsiResult) : TechnicalSignal :=
  { label := "Tech Stack",
    value := String.intercalate ", " psi.techStack,
    status := .good }

/-- Step 3 of `performBrandAudit`: the locally constructed signal list. -/
def constructSignals (psi : PsiResult) : List TechnicalSignal :=
  if psi.success then
    [mobileSpeedSignal psi, seoScoreSignal psi] ++
      (if 0 < psi.techStack.length then [techStackSignal psi] else [])
  else
    [{ label := "Site Scan", value := "Visual Analysis Only", status := .warning }]

/-- Source `getFallbackResult` (lines 272–280), closed over the locally constructed
signals. -/
def getFallbackResult (signals : List TechnicalSignal) : AuditResult :=
  { momentumScore := 50,
    businessContext := "Analysis Inconclusive",
    executiveSummary := "We could not complete the automated scan. Manual review required.",
    technicalSignals := signals,
    categories := [],
    perceptionGap := { detected := false, verdict := "N/A", details := "" },
    groundingUrls := [] }

/-- The signal merge (lines 299–307): start from the local signals and append
each AI-declared signal whose exact label is not already present. -/
def mergeSignals (signals aiSignals : List TechnicalSignal) : List TechnicalSignal :=
  aiSignals.foldl
    (fun finalSignals s =>
      if finalSignals.any (fun fs => fs.label = s.label) then finalSignals
      else finalSignals ++ [s])
    signals

/-- One iteration of the generation loop (lines 285–318): call the model
(oracle `o`), default the text to a bare JSON object, parse, merge signals
and build the returned `AuditResult`; throws on a provider error or a parse
failure (both are caught by the loop's `catch`). -/
def runAttempt (jsonParse : String → Option ParsedAudit)
    (signals : List TechnicalSignal) (brand : BrandInfo) (o : AIOutcome) :
    Except String AuditResult :=
  match o with
  | .athrow msg => .error msg
  | .success textOpt chunksOpt =>
    let text := jsOrStr textOpt "\x7b\x7d"
    match cleanAndParseJSON jsonParse text with
    | .error msg => .error msg
    | .ok parsed =>
      let finalSignals :=
        match parsed.technicalSignals with
        | some aiSignals => mergeSignals signals aiSignals
        | none => signals
      .ok
        { momentumScore := jsOrInt parsed.momentumScore 50,
          businessContext := jsOrStr parsed.businessContext ("Analysis of " ++ brand.name),
          executiveSummary := jsOrStr parsed.executiveSummary "Audit Complete.",
          technicalSignals := finalSignals,
          categories := parsed.categories.getD [],
          perceptionGap := parsed.perceptionGap.getD
            { detected := false, verdict := "None", details := "" },
          groundingUrls :=
            match chunksOpt with
            | some chunks => chunks.map (fun c => c.web.bind WebSource.uri)
            | none => [] }

/-- Execution trace of the generation loop: how many `generateContent`
attempts were made and which `delay(ms)` waits were awaited, in order. -/
structure AiTrace where
  attempts : Nat
  waits : List Nat
deriving DecidableEq, Repr

/-- One audit run's environment: the two credentials read from
`process.env` (`""` = unset), the behaviour of `JSON.parse`, and the
behaviours of the external calls in the order the code can issue them. -/
structure AuditEnv where
  apiKey : String
  psiKey : String
  jsonParse : String → Option ParsedAudit
  psiOutcome1 : FetchOutcome
  psiOutcome2 : FetchOutcome
  aiOutcome1 : AIOutcome
  aiOutcome2 : AIOutcome

/-- The local signal list a run with environment `env` constructs. -/
def envSignals (env : AuditEnv) : List TechnicalSignal :=
  constructSignals (fetchPageSpeedData env.psiKey env.psiOutcome1 env.psiOutcome2).1

/-- Source `performBrandAudit` (lines 183–327).  The result type is `Except`: a
`.error` would be an exception escaping to the caller; the theorems below
show this never happens.  `responses` feeds only the prompt (hence the
oracle), so the returned value does not depend on it.  Also returns the
attempt/wait trace of the generation loop. -/
def performBrandAudit (env : AuditEnv) (brand : BrandInfo)
    (responses : List UserResponse) : Except String (AuditResult × AiTrace) :=
  let _ := responses
  let psiData := (fetchPageSpeedData env.psiKey env.psiOutcome1 env.psiOutcome2).1
  let signals := constructSignals psiData
  -- `if (apiKey) ai = new GoogleGenAI(...)` / `if (!ai) return getFallbackResult()`
  if env.apiKey = "" then
    .ok (getFallbackResult signals, ⟨0, []⟩)
  else
    match runAttempt env.jsonParse signals brand env.aiOutcome1 with
    | .ok r => .ok (r, ⟨1, []⟩)
    | .error _ =>
      -- `catch`: attempt 1 of 2 failed → `await delay(1000)` and retry
      match runAttempt env.jsonParse signals brand env.aiOutcome2 with
      | .ok r => .ok (r, ⟨2, [1000]⟩)
      | .error _ => .ok (getFallbackResult signals, ⟨2, [1000]⟩)

/-- Returns `true` on the `.error` (thrown) side of an `Except`. -/
def isErr {α : Type} : Except String α → Bool
  | .error _ => true
  | .ok _ => false

/-! ## Concrete run data, used by witnesses and counterexamples -/

/-- A provider JSON body whose performance score is the float `0` and whose
SEO category carries no score. -/
def psiDataZero : PsiData :=
  { lighthouseResult := some
      { categories := some { performanceScore := some 0, seoScore := none },
        lcp := none, cls := none, fcp := none, stackPacks := none } }

/-- A parsed AI object with falsy `momentumScore`/`executiveSummary` and one
AI-declared signal whose label is a case variant of "Mobile Speed". -/
def parsedDup : ParsedAudit :=
  { momentumScore := some 0, businessContext := none, executiveSummary := some "",
    technicalSignals := some [⟨"mobile speed", "slow", .warning⟩],
    categories := none, perceptionGap := none }

/-- A `JSON.parse` oracle recognising exactly the payload `\x7bA\x7d`. -/
def jsonParseDup : String → Option ParsedAudit :=
  fun s => if s = "\x7bA\x7d" then some parsedDup else none

/-- Six grounding chunks (more than the five the spec expects to survive). -/
def chunksSix : List GroundingChunk :=
  [⟨some ⟨some "u1"⟩⟩, ⟨some ⟨none⟩⟩, ⟨none⟩, ⟨some ⟨some "u4"⟩⟩,
   ⟨some ⟨some "u5"⟩⟩, ⟨some ⟨some "u6"⟩⟩]

/-- An input brand. -/
def brandEx : BrandInfo := ⟨"B", "b.com"⟩

/-- Run environment: no AI credential at all (every oracle irrelevant). -/
def envNoAi : AuditEnv :=
  { apiKey := "", psiKey := "", jsonParse := fun _ => none,
    psiOutcome1 := .fthrow "x", psiOutcome2 := .fthrow "y",
    aiOutcome1 := .athrow "a", aiOutcome2 := .athrow "b" }

/-- Run environment: AI credential set, first generation attempt returns
text with no JSON object (a parse failure), second attempt succeeds with
`parsedDup` and six grounding chunks. -/
def envRetry : AuditEnv :=
  { apiKey := "k", psiKey := "", jsonParse := jsonParseDup,
    psiOutcome1 := .fthrow "x", psiOutcome2 := .ok psiDataZero,
    aiOutcome1 := .success (some "nojson") none,
    aiOutcome2 := .success (some "xx\x7bA\x7dyy") (some chunksSix) }

/-- Run environment: AI credential set and the first generation attempt
already succeeds with `parsedDup` and six grounding chunks. -/
def envFirstOk : AuditEnv :=
  { apiKey := "k", psiKey := "", jsonParse := jsonParseDup,
    psiOutcome1 := .fthrow "x", psiOutcome2 := .ok psiDataZero,
    aiOutcome1 := .success (some "xx\x7bA\x7dyy") (some chunksSix),
    aiOutcome2 := .athrow "b" }

/-- A crawl result as used by the signal constructor: success with a good
performance score, a middling SEO score and one detected technology. -/
def psiResultEx : PsiResult :=
  { success := true, perfScore := 95, seoScore := 75,
    lcp := "N/A", cls := "N/A", fcp := "N/A",
    techStack := ["React"], bugs := [], error := none, isFallback := none }

/-- The signal list a failed crawl produces. -/
def siteScanOnly : List TechnicalSignal :=
  [⟨"Site Scan", "Visual Analysis Only", .warning⟩]

/-! ## Helper lemmas -/

theorem string_mk_data (s : String) : (⟨s.data⟩ : String) = s := rfl

theorem string_data_append (a b : String) : (a ++ b).data = a.data ++ b.data := rfl

theorem head?_dropWhile_false (p : Char → Bool) :
    ∀ (l : List Char) (c : Char), (l.dropWhile p).head? = some c → p c = false := by
  intro l
  induction l with
  | nil => intro c h; simp [List.dropWhile] at h
  | cons a t ih =>
    intro c h
    by_cases hp : p a
    · rw [List.dropWhile_cons_of_pos hp] at h
      exact ih c h
    · rw [List.dropWhile_cons_of_neg hp] at h
      simp only [List.head?_cons, Option.some.injEq] at h
      subst h
      exact Bool.eq_false_iff.mpr hp

theorem dropWhile_eq_self_of_head (p : Char → Bool) (l : List Char)
    (h : ∀ c, l.head? = some c → p c = false) : l.dropWhile p = l := by
  cases l with
  | nil => rfl
  | cons a t => exact List.dropWhile_cons_of_neg (by simp [h a rfl])

theorem exists_append_dropTrailing (p : Char → Bool) (l : List Char) :
    ∃ k, l = dropTrailing p l ++ k := by
  refine ⟨(l.reverse.takeWhile p).reverse, ?_⟩
  unfold dropTrailing
  rw [← List.reverse_append, List.takeWhile_append_dropWhile, List.reverse_reverse]

theorem head?_dropTrailing (p : Char → Bool) (l : List Char)
    (h : dropTrailing p l ≠ []) : (dropTrailing p l).head? = l.head? := by
  obtain ⟨k, hk⟩ := exists_append_dropTrailing p l
  cases hd : dropTrailing p l with
  | nil => exact absurd hd h
  | cons a t => rw [hd] at hk; rw [hk]; rfl

theorem getLast?_dropTrailing_false (p : Char → Bool) (l : List Char) (c : Char)
    (h : (dropTrailing p l).getLast? = some c) : p c = false := by
  unfold dropTrailing at h
  rw [← List.head?_reverse, List.reverse_reverse] at h
  exact head?_dropWhile_false p l.reverse c h

theorem dropTrailing_eq_self (p : Char → Bool) (l : List Char) (c : Char)
    (hl : l.getLast? = some c) (hc : p c = false) : dropTrailing p l = l := by
  unfold dropTrailing
  rw [dropWhile_eq_self_of_head p l.reverse, List.reverse_reverse]
  intro d hd
  rw [List.head?_reverse, hl] at hd
  cases hd
  exact hc

theorem listStartsWith_append_self (pat rest : List Char) :
    listStartsWith pat (pat ++ rest) = true := by
  induction pat with
  | nil => rfl
  | cons a t ih => simp [listStartsWith, ih]

/-- A string fixed by trimming and slash-stripping that carries a scheme is
fixed by `normalizeUrl`. -/
theorem normalizeUrl_fixed (t : String)
    (h1 : jsTrim t = t) (h2 : stripTrailingSlashes t = t)
    (h3 : startsWithScheme t = true) : normalizeUrl t = t := by
  unfold normalizeUrl
  rw [h1, h2, if_pos h3]

theorem normalizeUrl_eq (x : String) : normalizeUrl x =
    (if startsWithScheme (stripTrailingSlashes (jsTrim x))
     then stripTrailingSlashes (jsTrim x)
     else "https://" ++ stripTrailingSlashes (jsTrim x)) := rfl

/-! ## C4 — idempotence of `normalizeUrl` -/

/-- C4 counterexample: on the input `""` the claim
`normalizeUrl (normalizeUrl x) = normalizeUrl x` is false:
`normalizeUrl "" = "https://"`, whose trailing slashes are stripped by the
second pass, which then prepends another scheme, giving
`"https://https:"`. -/
theorem claim_C4_cex :
    normalizeUrl (normalizeUrl "") ≠ normalizeUrl "" := by decide

/-- C4 (amended): `normalizeUrl` is idempotent on every input whose trimmed,
trailing-slash-stripped form is nonempty and does not end in a whitespace
character; on the remaining inputs (those collapsing to the bare scheme
prefix, such as `""`, or re-exposing trailing whitespace, such as `"a /"`)
idempotence fails. -/
theorem claim_C4 (x : String) (c : Char)
    (hlast : (stripTrailingSlashes (jsTrim x)).data.getLast? = some c)
    (hws : jsWhitespace c = false) :
    normalizeUrl (normalizeUrl x) = normalizeUrl x := by
  have hslash : (c == '/') = false :=
    getLast?_dropTrailing_false (fun d => d == '/') (jsTrim x).data c hlast
  have hne : (stripTrailingSlashes (jsTrim x)).data ≠ [] := by
    intro h0
    rw [h0] at hlast
    simp at hlast
  have hhead : ∀ d, (stripTrailingSlashes (jsTrim x)).data.head? = some d →
      jsWhitespace d = false := by
    intro d hd
    have e1 : (stripTrailingSlashes (jsTrim x)).data.head? = (jsTrim x).data.head? :=
      head?_dropTrailing _ _ hne
    have htne : dropTrailing jsWhitespace (x.data.dropWhile jsWhitespace) ≠ [] := by
      intro h0
      apply hne
      show dropTrailing (fun d => d == '/') (jsTrim x).data = []
      have : (jsTrim x).data = [] := h0
      rw [this]
      rfl
    have e2 : (jsTrim x).data.head? = (x.data.dropWhile jsWhitespace).head? :=
      head?_dropTrailing jsWhitespace (x.data.dropWhile jsWhitespace) htne
    rw [e1, e2] at hd
    exact head?_dropWhile_false jsWhitespace x.data d hd
  rw [normalizeUrl_eq x]
  generalize hn : stripTrailingSlashes (jsTrim x) = n at hlast hne hhead
  by_cases hs : startsWithScheme n
  · rw [if_pos hs]
    refine normalizeUrl_fixed n ?_ ?_ hs
    · have hdw : n.data.dropWhile jsWhitespace = n.data :=
        dropWhile_eq_self_of_head _ _ hhead
      have hdt : dropTrailing jsWhitespace n.data = n.data :=
        dropTrailing_eq_self jsWhitespace n.data c hlast hws
      calc jsTrim n = ⟨dropTrailing jsWhitespace (n.data.dropWhile jsWhitespace)⟩ := rfl
        _ = ⟨n.data⟩ := by rw [hdw, hdt]
        _ = n := string_mk_data n
    · have hdt : dropTrailing (fun d => d == '/') n.data = n.data :=
        dropTrailing_eq_self _ n.data c hlast hslash
      calc stripTrailingSlashes n = ⟨dropTrailing (fun d => d == '/') n.data⟩ := rfl
        _ = ⟨n.data⟩ := by rw [hdt]
        _ = n := string_mk_data n
  · rw [if_neg hs]
    have hydata : ("https://" ++ n).data = "https://".data ++ n.data :=
      string_data_append _ _
    have hylast : ("https://" ++ n).data.getLast? = some c := by
      rw [hydata, List.getLast?_append_of_ne_nil _ hne]
      exact hlast
    have hyhead : ∀ d, ("https://" ++ n).data.head? = some d → jsWhitespace d = false := by
      intro d hd
      rw [hydata] at hd
      have hh : ("https://".data ++ n.data).head? = some 'h' := rfl
      rw [hh] at hd
      simp only [Option.some.injEq] at hd
      subst hd
      decide
    refine normalizeUrl_fixed _ ?_ ?_ ?_
    · have hdw : ("https://" ++ n).data.dropWhile jsWhitespace = ("https://" ++ n).data :=
        dropWhile_eq_self_of_head _ _ hyhead
      have hdt : dropTrailing jsWhitespace ("https://" ++ n).data = ("https://" ++ n).data :=
        dropTrailing_eq_self jsWhitespace _ c hylast hws
      calc jsTrim ("https://" ++ n)
          = ⟨dropTrailing jsWhitespace (("https://" ++ n).data.dropWhile jsWhitespace)⟩ := rfl
        _ = ⟨("https://" ++ n).data⟩ := by rw [hdw, hdt]
        _ = "https://" ++ n := string_mk_data _
    · have hdt : dropTrailing (fun d => d == '/') ("https://" ++ n).data =
          ("https://" ++ n).data :=
        dropTrailing_eq_self _ _ c hylast hslash
      calc stripTrailingSlashes ("https://" ++ n)
          = ⟨dropTrailing (fun d => d == '/') ("https://" ++ n).data⟩ := rfl
        _ = ⟨("https://" ++ n).data⟩ := by rw [hdt]
        _ = "https://" ++ n := string_mk_data _
    · unfold startsWithScheme
      rw [hydata, listStartsWith_append_self]
      exact Bool.or_true _

/-- C4 witness: the amended idempotence applied at the concrete input
`"https://example.com"`. -/
theorem claim_C4_witness :
    normalizeUrl (normalizeUrl "https://example.com") = normalizeUrl "https://example.com" :=
  claim_C4 "https://example.com" 'm' (by decide) (by decide)

/-! ## Merge-and-structure lemmas -/

theorem mergeSignals_cons (init : List TechnicalSignal) (a : TechnicalSignal)
    (t : List TechnicalSignal) :
    mergeSignals init (a :: t) =
      mergeSignals
        (if init.any (fun fs => fs.label = a.label) then init else init ++ [a]) t := rfl

theorem mergeSignals_exists_rest (aiSignals : List TechnicalSignal) :
    ∀ init, ∃ rest, mergeSignals init aiSignals = init ++ rest := by
  induction aiSignals with
  | nil => exact fun init => ⟨[], by simp [mergeSignals]⟩
  | cons a t ih =>
    intro init
    rw [mergeSignals_cons]
    by_cases hc : init.any (fun fs => fs.label = a.label)
    · rw [if_pos hc]
      exact ih init
    · rw [if_neg hc]
      obtain ⟨rest, hrest⟩ := ih (init ++ [a])
      exact ⟨[a] ++ rest, by rw [hrest, List.append_assoc]⟩

theorem mergeSignals_labels_nodup (aiSignals : List TechnicalSignal) :
    ∀ init, (init.map TechnicalSignal.label).Nodup →
      ((mergeSignals init aiSignals).map TechnicalSignal.label).Nodup := by
  induction aiSignals with
  | nil => exact fun init h => h
  | cons a t ih =>
    intro init h
    rw [mergeSignals_cons]
    by_cases hc : init.any (fun fs => fs.label = a.label)
    · rw [if_pos hc]
      exact ih init h
    · rw [if_neg hc]
      apply ih
      rw [List.map_append]
      apply List.Nodup.append h (by simp)
      intro x hx hxa
      simp only [List.map_cons, List.map_nil, List.mem_singleton] at hxa
      simp only [List.mem_map] at hx
      obtain ⟨fs, hfs, hlab⟩ := hx
      apply hc
      rw [List.any_eq_true]
      exact ⟨fs, hfs, by simp [hlab, hxa]⟩

theorem constructSignals_labels_nodup (psi : PsiResult) :
    ((constructSignals psi).map TechnicalSignal.label).Nodup := by
  unfold constructSignals
  split
  · split
    · simp [mobileSpeedSignal, seoScoreSignal, techStackSignal]
    · simp [mobileSpeedSignal, seoScoreSignal]
  · simp

/-- The top-level case structure of `performBrandAudit`. -/
theorem performBrandAudit_cases (env : AuditEnv) (brand : BrandInfo)
    (rs : List UserResponse) :
    performBrandAudit env brand rs =
      (if env.apiKey = "" then
        .ok (getFallbackResult (envSignals env), ⟨0, []⟩)
      else
        match runAttempt env.jsonParse (envSignals env) brand env.aiOutcome1 with
        | .ok r => .ok (r, ⟨1, []⟩)
        | .error _ =>
          match runAttempt env.jsonParse (envSignals env) brand env.aiOutcome2 with
          | .ok r => .ok (r, ⟨2, [1000]⟩)
          | .error _ => .ok (getFallbackResult (envSignals env), ⟨2, [1000]⟩)) := rfl

/-- The technical-signal list of any value `runAttempt` returns. -/
theorem runAttempt_signals (jp : String → Option ParsedAudit)
    (signals : List TechnicalSignal) (brand : BrandInfo) (o : AIOutcome)
    (r : AuditResult) (h : runAttempt jp signals brand o = .ok r) :
    r.technicalSignals = signals ∨
      ∃ aiSignals, r.technicalSignals = mergeSignals signals aiSignals := by
  unfold runAttempt at h
  cases o with
  | athrow msg => exact absurd h (by simp)
  | success textOpt chunksOpt =>
    simp only at h
    cases hp : cleanAndParseJSON jp (jsOrStr textOpt "\x7b\x7d") with
    | error msg => rw [hp] at h; exact absurd h (by simp)
    | ok parsed =>
      rw [hp] at h
      simp only [Except.ok.injEq] at h
      cases hts : parsed.technicalSignals with
      | none =>
        left
        rw [← h]
        simp [hts]
      | some aiSignals =>
        right
        refine ⟨aiSignals, ?_⟩
        rw [← h]
        simp [hts]

/-- Any value a successful `runAttempt` (or the fallback) returns keeps the
local signals as a prefix with pairwise distinct exact labels. -/
theorem runAttempt_ok_signals (env : AuditEnv) (brand : BrandInfo) (o : AIOutcome)
    (r : AuditResult)
    (h : runAttempt env.jsonParse (envSignals env) brand o = .ok r) :
    (∃ rest, r.technicalSignals = envSignals env ++ rest) ∧
    (r.technicalSignals.map TechnicalSignal.label).Nodup := by
  rcases runAttempt_signals _ _ _ _ r h with hs | ⟨ai, hs⟩
  · refine ⟨⟨[], by rw [hs, List.append_nil]⟩, ?_⟩
    rw [hs]
    exact constructSignals_labels_nodup _
  · constructor
    · rw [hs]
      exact mergeSignals_exists_rest ai _
    · rw [hs]
      exact mergeSignals_labels_nodup ai _ (constructSignals_labels_nodup _)

/-! ## C1 — the orchestration never throws and returns a complete result -/

/-- C1 (confirmed): for every brand, every response sequence and every
behaviour of the external page-performance provider, AI provider and
`JSON.parse` (success, HTTP error, thrown network error/timeout, malformed
JSON, missing credential), `performBrandAudit` returns `.ok` — no exception
escapes — and the returned value is a structurally complete `AuditResult`
(an inhabitant of the `AuditResult` structure, which carries all required
fields). -/
theorem claim_C1 (env : AuditEnv) (brand : BrandInfo) (rs : List UserResponse) :
    ∃ (r : AuditResult) (tr : AiTrace), performBrandAudit env brand rs = .ok (r, tr) := by
  rw [performBrandAudit_cases]
  by_cases hk : env.apiKey = ""
  · rw [if_pos hk]
    exact ⟨_, _, rfl⟩
  · rw [if_neg hk]
    cases h1 : runAttempt env.jsonParse (envSignals env) brand env.aiOutcome1 with
    | ok r => exact ⟨r, _, rfl⟩
    | error m =>
      cases h2 : runAttempt env.jsonParse (envSignals env) brand env.aiOutcome2 with
      | ok r => exact ⟨r, _, rfl⟩
      | error m2 => exact ⟨_, _, rfl⟩

/-! ## C2 — what the AI-unavailable path returns -/

/-- C2 counterexample: with no AI credential configured,
`performBrandAudit` does return the fallback, but the fallback's category
list does not have six entries and its verdict is not "Inconclusive". -/
theorem claim_C2_cex :
    ∃ r tr, performBrandAudit envNoAi brandEx [] = .ok (r, tr) ∧
      ¬(r.categories.length = 6 ∧ r.perceptionGap.verdict = "Inconclusive") := by
  refine ⟨_, _, rfl, ?_⟩
  decide

/-- C2 (amended): whenever the AI path cannot complete (no AI credential,
or both generation attempts fail), `performBrandAudit` returns
`getFallbackResult` for the locally collected signals — a result whose
`categories` list is empty and whose `perceptionGap.verdict` is `"N/A"`. -/
theorem claim_C2 (env : AuditEnv) (brand : BrandInfo) (rs : List UserResponse)
    (h : env.apiKey = "" ∨
      (isErr (runAttempt env.jsonParse (envSignals env) brand env.aiOutcome1) = true ∧
       isErr (runAttempt env.jsonParse (envSignals env) brand env.aiOutcome2) = true)) :
    ∃ tr, performBrandAudit env brand rs = .ok (getFallbackResult (envSignals env), tr) ∧
      (getFallbackResult (envSignals env)).categories = [] ∧
      (getFallbackResult (envSignals env)).perceptionGap.verdict = "N/A" := by
  rw [performBrandAudit_cases]
  by_cases hk : env.apiKey = ""
  · rw [if_pos hk]
    exact ⟨⟨0, []⟩, rfl, rfl, rfl⟩
  · rw [if_neg hk]
    rcases h with hk0 | ⟨h1, h2⟩
    · exact absurd hk0 hk
    · cases ha1 : runAttempt env.jsonParse (envSignals env) brand env.aiOutcome1 with
      | ok r =>
        rw [ha1] at h1
        simp [isErr] at h1
      | error m1 =>
        cases ha2 : runAttempt env.jsonParse (envSignals env) brand env.aiOutcome2 with
        | ok r =>
          rw [ha2] at h2
          simp [isErr] at h2
        | error m2 => exact ⟨⟨2, [1000]⟩, rfl, rfl, rfl⟩

/-- C2 witness: the amended statement applied at the credential-free
environment. -/
theorem claim_C2_witness :
    ∃ tr, performBrandAudit envNoAi brandEx [] =
        .ok (getFallbackResult (envSignals envNoAi), tr) ∧
      (getFallbackResult (envSignals envNoAi)).categories = [] ∧
      (getFallbackResult (envSignals envNoAi)).perceptionGap.verdict = "N/A" :=
  claim_C2 envNoAi brandEx [] (Or.inl rfl)

/-! ## C3 — the deduplication invariant of the merged signal list -/

/-- C3 counterexample: deduplication is by exact (case-sensitive) label
equality, so an AI-declared signal labelled "mobile speed" is appended even
though the local list carries "Mobile Speed": the final list contains two
labels that are equal case-insensitively. -/
theorem claim_C3_cex :
    ∃ r tr, performBrandAudit envRetry brandEx [] = .ok (r, tr) ∧
      ¬((r.technicalSignals.map (fun s => jsToLower s.label)).Nodup) := by
  refine ⟨_, _, rfl, ?_⟩
  decide

/-- C3 (amended): in every `AuditResult` returned by `performBrandAudit`
the locally collected signals come first and are all kept, each AI-declared
signal is appended only if no already-present signal's label matches it
**exactly** (case-sensitively), and consequently no two entries of
`technicalSignals` have the same exact label (case variants may coexist). -/
theorem claim_C3 (env : AuditEnv) (brand : BrandInfo) (rs : List UserResponse)
    (r : AuditResult) (tr : AiTrace)
    (h : performBrandAudit env brand rs = .ok (r, tr)) :
    (∃ rest, r.technicalSignals = envSignals env ++ rest) ∧
    (r.technicalSignals.map TechnicalSignal.label).Nodup := by
  rw [performBrandAudit_cases] at h
  by_cases hk : env.apiKey = ""
  · rw [if_pos hk] at h
    simp only [Except.ok.injEq, Prod.mk.injEq] at h
    obtain ⟨hr, _⟩ := h
    rw [← hr]
    refine ⟨⟨[], by simp [getFallbackResult]⟩, ?_⟩
    exact constructSignals_labels_nodup _
  · rw [if_neg hk] at h
    cases ha1 : runAttempt env.jsonParse (envSignals env) brand env.aiOutcome1 with
    | ok r1 =>
      rw [ha1] at h
      simp only [Except.ok.injEq, Prod.mk.injEq] at h
      obtain ⟨hr, _⟩ := h
      rw [← hr]
      exact runAttempt_ok_signals env brand env.aiOutcome1 r1 ha1
    | error m1 =>
      rw [ha1] at h
      cases ha2 : runAttempt env.jsonParse (envSignals env) brand env.aiOutcome2 with
      | ok r2 =>
        rw [ha2] at h
        simp only [Except.ok.injEq, Prod.mk.injEq] at h
        obtain ⟨hr, _⟩ := h
        rw [← hr]
        exact runAttempt_ok_signals env brand env.aiOutcome2 r2 ha2
      | error m2 =>
        rw [ha2] at h
        simp only [Except.ok.injEq, Prod.mk.injEq] at h
        obtain ⟨hr, _⟩ := h
        rw [← hr]
        refine ⟨⟨[], by simp [getFallbackResult]⟩, ?_⟩
        exact constructSignals_labels_nodup _

/-- C3 witness: the amended invariant applied at the credential-free
environment's concrete run. -/
theorem claim_C3_witness :
    (∃ rest, (getFallbackResult siteScanOnly).technicalSignals =
        envSignals envNoAi ++ rest) ∧
    ((getFallbackResult siteScanOnly).technicalSignals.map TechnicalSignal.label).Nodup :=
  claim_C3 envNoAi brandEx [] (getFallbackResult siteScanOnly) ⟨0, []⟩ rfl

/-! ## C5 — behaviour with no PageSpeed credential -/

/-- C5 counterexample: with no credential configured
`fetchPageSpeedData` does **not** return immediately without network
activity: it skips the authenticated attempt, waits 1s, and issues one
anonymous network request — which can even succeed, yielding
`success = true`. -/
theorem claim_C5_cex :
    (fetchPageSpeedData "" (.fthrow "network down") (.ok psiDataZero)).1.success = true ∧
    (fetchPageSpeedData "" (.fthrow "network down") (.ok psiDataZero)).2.networkCalls = 1 ∧
    (fetchPageSpeedData "" (.fthrow "network down") (.ok psiDataZero)).2.waits = [1000] := by
  decide

/-- C5 (amended): if no page-speed credential is configured, the
authenticated attempt aborts before any network call (`MISSING_KEY`), and
after a 1s delay exactly one anonymous network request is issued; the run
returns `success = false` with placeholder metrics only when that anonymous
attempt fails (rejection or HTTP error), and otherwise processes its JSON
body normally. -/
theorem claim_C5 (o1 o2 : FetchOutcome) :
    (fetchPageSpeedData "" o1 o2).2 = ⟨1, [1000]⟩ ∧
    (∀ d, o2 = .ok d → (fetchPageSpeedData "" o1 o2).1 = extractPsi d) ∧
    (∀ msg, o2 = .fthrow msg → (fetchPageSpeedData "" o1 o2).1 = psiFailure msg) ∧
    (∀ st t, o2 = .httpError st t →
      (fetchPageSpeedData "" o1 o2).1 = psiFailure (psiFailedMsg st t)) := by
  refine ⟨?_, ?_, ?_, ?_⟩
  · cases o2 <;> rfl
  · intro d hd
    subst hd
    rfl
  · intro msg hm
    subst hm
    rfl
  · intro st t ht
    subst ht
    rfl

/-- C5 witness: the amended statement applied to a keyless run whose
anonymous retry returns a JSON body. -/
theorem claim_C5_witness :
    (fetchPageSpeedData "" (.fthrow "x") (.ok psiDataZero)).1 = extractPsi psiDataZero :=
  (claim_C5 (.fthrow "x") (.ok psiDataZero)).2.1 psiDataZero rfl

/-! ## C6 — the locally built signal list -/

theorem mobileSpeedSignal_status (psi : PsiResult) :
    ((mobileSpeedSignal psi).status = .good ↔ 90 ≤ psi.perfScore) ∧
    ((mobileSpeedSignal psi).status = .warning ↔
      (50 ≤ psi.perfScore ∧ psi.perfScore < 90)) ∧
    ((mobileSpeedSignal psi).status = .critical ↔ psi.perfScore < 50) := by
  unfold mobileSpeedSignal
  dsimp only
  split_ifs with h1 h2 <;> refine ⟨?_, ?_, ?_⟩ <;> simp <;> omega

theorem seoScoreSignal_status (psi : PsiResult) :
    ((seoScoreSignal psi).status = .good ↔ 90 ≤ psi.seoScore) ∧
    ((seoScoreSignal psi).status = .warning ↔
      (70 ≤ psi.seoScore ∧ psi.seoScore < 90)) ∧
    ((seoScoreSignal psi).status = .critical ↔ psi.seoScore < 70) := by
  unfold seoScoreSignal
  dsimp only
  split_ifs with h1 h2 <;> refine ⟨?_, ?_, ?_⟩ <;> simp <;> omega

/-- C6 (confirmed): on a successful crawl the local list is the
mobile-performance signal (good iff score ≥ 90, warning iff 50 ≤ score < 90,
critical iff score < 50), the SEO signal (good iff ≥ 90, warning iff
70 ≤ score < 90, critical iff < 70), and — exactly when technologies were
detected — a good-status tech-stack signal; on a failed crawl the list is
the single warning-status "Site Scan" signal (never critical). -/
theorem claim_C6 (psi : PsiResult) :
    (psi.success = true →
      constructSignals psi =
        [mobileSpeedSignal psi, seoScoreSignal psi] ++
          (if 0 < psi.techStack.length then [techStackSignal psi] else []) ∧
      ((mobileSpeedSignal psi).status = .good ↔ 90 ≤ psi.perfScore) ∧
      ((mobileSpeedSignal psi).status = .warning ↔
        (50 ≤ psi.perfScore ∧ psi.perfScore < 90)) ∧
      ((mobileSpeedSignal psi).status = .critical ↔ psi.perfScore < 50) ∧
      ((seoScoreSignal psi).status = .good ↔ 90 ≤ psi.seoScore) ∧
      ((seoScoreSignal psi).status = .warning ↔
        (70 ≤ psi.seoScore ∧ psi.seoScore < 90)) ∧
      ((seoScoreSignal psi).status = .critical ↔ psi.seoScore < 70) ∧
      (psi.techStack ≠ [] →
        techStackSignal psi ∈ constructSignals psi ∧
        (techStackSignal psi).status = .good)) ∧
    (psi.success = false →
      constructSignals psi = [⟨"Site Scan", "Visual Analysis Only", .warning⟩] ∧
      ∀ sig ∈ constructSignals psi, sig.status = .warning) := by
  constructor
  · intro hs
    obtain ⟨m1, m2, m3⟩ := mobileSpeedSignal_status psi
    obtain ⟨s1, s2, s3⟩ := seoScoreSignal_status psi
    refine ⟨by simp [constructSignals, hs], m1, m2, m3, s1, s2, s3, ?_⟩
    intro hts
    constructor
    · have : 0 < psi.techStack.length := List.length_pos.mpr hts
      simp [constructSignals, hs, this]
    · rfl
  · intro hs
    have he : constructSignals psi = [⟨"Site Scan", "Visual Analysis Only", .warning⟩] := by
      simp [constructSignals, hs]
    refine ⟨he, ?_⟩
    intro sig hsig
    rw [he] at hsig
    simp only [List.mem_singleton] at hsig
    rw [hsig]

/-- C6 witness: the success branch evaluated at a concrete crawl result. -/
theorem claim_C6_witness :
    constructSignals psiResultEx =
      [mobileSpeedSignal psiResultEx, seoScoreSignal psiResultEx] ++
        (if 0 < psiResultEx.techStack.length then [techStackSignal psiResultEx] else []) :=
  ((claim_C6 psiResultEx).1 rfl).1

/-! ## C7 — retry discipline of the generation loop -/

/-- C7 (confirmed): the generation loop makes at most 2 attempts; a
JSON-parse failure of the returned text makes the attempt fail (it is not
fatal); and when the first attempt fails and the second succeeds, the run
returns the second attempt's content with exactly one 1000 ms delay
recorded. -/
theorem claim_C7 (env : AuditEnv) (brand : BrandInfo) (rs : List UserResponse) :
    (∀ r tr, performBrandAudit env brand rs = .ok (r, tr) → tr.attempts ≤ 2) ∧
    (∀ t cs msg, env.aiOutcome1 = .success t cs →
      cleanAndParseJSON env.jsonParse (jsOrStr t "\x7b\x7d") = .error msg →
      isErr (runAttempt env.jsonParse (envSignals env) brand env.aiOutcome1) = true) ∧
    (env.apiKey ≠ "" →
      isErr (runAttempt env.jsonParse (envSignals env) brand env.aiOutcome1) = true →
      ∀ r2, runAttempt env.jsonParse (envSignals env) brand env.aiOutcome2 = .ok r2 →
      performBrandAudit env brand rs = .ok (r2, ⟨2, [1000]⟩)) := by
  refine ⟨?_, ?_, ?_⟩
  · intro r tr h
    rw [performBrandAudit_cases] at h
    by_cases hk : env.apiKey = ""
    · rw [if_pos hk] at h
      simp only [Except.ok.injEq, Prod.mk.injEq] at h
      rw [← h.2]
      decide
    · rw [if_neg hk] at h
      cases ha1 : runAttempt env.jsonParse (envSignals env) brand env.aiOutcome1 with
      | ok r1 =>
        rw [ha1] at h
        simp only [Except.ok.injEq, Prod.mk.injEq] at h
        rw [← h.2]
        decide
      | error m1 =>
        rw [ha1] at h
        cases ha2 : runAttempt env.jsonParse (envSignals env) brand env.aiOutcome2 with
        | ok r2 =>
          rw [ha2] at h
          simp only [Except.ok.injEq, Prod.mk.injEq] at h
          rw [← h.2]
          try decide
        | error m2 =>
          rw [ha2] at h
          simp only [Except.ok.injEq, Prod.mk.injEq] at h
          rw [← h.2]
          try decide
  · intro t cs msg h1 hp
    rw [h1]
    unfold runAttempt
    simp only
    rw [hp]
    rfl
  · intro hk h1 r2 h2
    rw [performBrandAudit_cases, if_neg hk]
    cases ha1 : runAttempt env.jsonParse (envSignals env) brand env.aiOutcome1 with
    | ok r1 =>
      rw [ha1] at h1
      simp [isErr] at h1
    | error m1 =>
      rw [h2]

/-- C7 witness: a run whose first attempt is a parse failure and whose
second attempt succeeds, at concrete inputs. -/
theorem claim_C7_witness :
    (isErr (runAttempt envRetry.jsonParse (envSignals envRetry) brandEx
        envRetry.aiOutcome1) = true) ∧
    ∃ r2, runAttempt envRetry.jsonParse (envSignals envRetry) brandEx
        envRetry.aiOutcome2 = .ok r2 ∧
      performBrandAudit envRetry brandEx [] = .ok (r2, ⟨2, [1000]⟩) := by
  constructor
  · exact (claim_C7 envRetry brandEx []).2.1 (some "nojson") none
      "Response does not contain a JSON object" rfl rfl
  · refine ⟨_, rfl, ?_⟩
    exact (claim_C7 envRetry brandEx []).2.2 (by decide) rfl _ rfl

/-! ## C8 — grounding URLs of a successful attempt -/

/-- The value a successful parse makes `runAttempt` return. -/
theorem runAttempt_ok_of_parse (jp : String → Option ParsedAudit)
    (signals : List TechnicalSignal) (brand : BrandInfo)
    (t : Option String) (chunksOpt : Option (List GroundingChunk))
    (parsed : ParsedAudit)
    (hp : cleanAndParseJSON jp (jsOrStr t "\x7b\x7d") = .ok parsed) :
    runAttempt jp signals brand (.success t chunksOpt) = .ok
      { momentumScore := jsOrInt parsed.momentumScore 50,
        businessContext := jsOrStr parsed.businessContext ("Analysis of " ++ brand.name),
        executiveSummary := jsOrStr parsed.executiveSummary "Audit Complete.",
        technicalSignals :=
          match parsed.technicalSignals with
          | some aiSignals => mergeSignals signals aiSignals
          | none => signals,
        categories := parsed.categories.getD [],
        perceptionGap := parsed.perceptionGap.getD ⟨false, "None", ""⟩,
        groundingUrls :=
          match chunksOpt with
          | some chunks => chunks.map (fun c => c.web.bind WebSource.uri)
          | none => [] } := by
  unfold runAttempt
  simp only
  rw [hp]

/-- C8 counterexample: a successful attempt whose grounding metadata lists
six chunks yields six `groundingUrls` entries — the claimed 5-element cap
does not exist in the code. -/
theorem claim_C8_cex :
    ∃ r tr, performBrandAudit envFirstOk brandEx [] = .ok (r, tr) ∧
      5 < r.groundingUrls.length := by
  refine ⟨_, _, rfl, ?_⟩
  decide

/-- C8 (amended): on a successful generation attempt the `groundingUrls`
field contains one entry per grounding chunk of the model's metadata (the
chunk's `web?.uri`, possibly absent), with no truncation to 5. -/
theorem claim_C8 (env : AuditEnv) (brand : BrandInfo) (rs : List UserResponse)
    (t : Option String) (chunks : List GroundingChunk) (parsed : ParsedAudit)
    (hk : env.apiKey ≠ "")
    (h1 : env.aiOutcome1 = .success t (some chunks))
    (hp : cleanAndParseJSON env.jsonParse (jsOrStr t "\x7b\x7d") = .ok parsed) :
    ∃ r tr, performBrandAudit env brand rs = .ok (r, tr) ∧
      r.groundingUrls = chunks.map (fun c => c.web.bind WebSource.uri) := by
  rw [performBrandAudit_cases, if_neg hk, h1,
    runAttempt_ok_of_parse env.jsonParse (envSignals env) brand t (some chunks) parsed hp]
  exact ⟨_, _, rfl, rfl⟩

/-- C8 witness: the amended statement at the six-chunk environment. -/
theorem claim_C8_witness :
    ∃ r tr, performBrandAudit envFirstOk brandEx [] = .ok (r, tr) ∧
      r.groundingUrls = chunksSix.map (fun c => c.web.bind WebSource.uri) :=
  claim_C8 envFirstOk brandEx [] (some "xx\x7bA\x7dyy") chunksSix parsedDup
    (by decide) rfl rfl

/-! ## C9 — falsy parsed fields are replaced by the defaults -/

/-- C9 (confirmed): in the successful AI path a *falsy* parsed field is
replaced by its default, not only an absent one: parsed `momentumScore = 0`
yields 50 and parsed `executiveSummary = ""` yields "Audit Complete.". -/
theorem claim_C9 (env : AuditEnv) (brand : BrandInfo) (rs : List UserResponse)
    (t : Option String) (cs : Option (List GroundingChunk)) (parsed : ParsedAudit)
    (hk : env.apiKey ≠ "")
    (h1 : env.aiOutcome1 = .success t cs)
    (hp : cleanAndParseJSON env.jsonParse (jsOrStr t "\x7b\x7d") = .ok parsed)
    (hm : parsed.momentumScore = some 0)
    (he : parsed.executiveSummary = some "") :
    ∃ r tr, performBrandAudit env brand rs = .ok (r, tr) ∧
      r.momentumScore = 50 ∧ r.executiveSummary = "Audit Complete." := by
  rw [performBrandAudit_cases, if_neg hk, h1,
    runAttempt_ok_of_parse env.jsonParse (envSignals env) brand t cs parsed hp]
  refine ⟨_, _, rfl, ?_, ?_⟩
  · simp [jsOrInt, hm]
  · simp [jsOrStr, he]

/-- C9 witness: the falsy-default behaviour at a concrete environment whose
parsed object has `momentumScore = 0` and an empty summary. -/
theorem claim_C9_witness :
    ∃ r tr, performBrandAudit envFirstOk brandEx [] = .ok (r, tr) ∧
      r.momentumScore = 50 ∧ r.executiveSummary = "Audit Complete." :=
  claim_C9 envFirstOk brandEx [] (some "xx\x7bA\x7dyy") (some chunksSix) parsedDup
    (by decide) rfl rfl rfl rfl

/-! ## C10 — success with out-of-range −1 scores -/

/-- A keyed run whose authenticated fetch returns a JSON body processes that
body directly. -/
theorem fetchPageSpeedData_auth_ok (key : String) (hk : key ≠ "")
    (d : PsiData) (o2 : FetchOutcome) :
    fetchPageSpeedData key (.ok d) o2 = (extractPsi d, ⟨1, []⟩) := by
  unfold fetchPageSpeedData performFetch
  rw [if_neg (fun h => hk h.2)]

/-- C10 (confirmed): `fetchPageSpeedData` can return `success = true`
together with `perfScore = -1` or `seoScore = -1` — whenever the provider's
0–1 category score is `0`, `null` or absent — so `success = true` does not
bound the scores to 0–100, and the derived "Mobile Speed" / "SEO Score"
signal then carries the value `"-1/100"` with status `critical` and is part
of the constructed signal list. -/
theorem claim_C10 (key : String) (o1 o2 : FetchOutcome) (d : PsiData)
    (lh : PsiLighthouse) (cats : PsiCategories)
    (hk : key ≠ "") (h1 : o1 = .ok d)
    (hd : d.lighthouseResult = some lh) (hc : lh.categories = some cats) :
    (fetchPageSpeedData key o1 o2).1.success = true ∧
    ((cats.performanceScore = none ∨ cats.performanceScore = some 0) →
      (fetchPageSpeedData key o1 o2).1.perfScore = -1 ∧
      mobileSpeedSignal (fetchPageSpeedData key o1 o2).1 =
        ⟨"Mobile Speed", "-1/100", .critical⟩ ∧
      mobileSpeedSignal (fetchPageSpeedData key o1 o2).1 ∈
        constructSignals (fetchPageSpeedData key o1 o2).1) ∧
    ((cats.seoScore = none ∨ cats.seoScore = some 0) →
      (fetchPageSpeedData key o1 o2).1.seoScore = -1 ∧
      seoScoreSignal (fetchPageSpeedData key o1 o2).1 =
        ⟨"SEO Score", "-1/100", .critical⟩ ∧
      seoScoreSignal (fetchPageSpeedData key o1 o2).1 ∈
        constructSignals (fetchPageSpeedData key o1 o2).1) := by
  subst h1
  rw [fetchPageSpeedData_auth_ok key hk d o2]
  have he : extractPsi d =
      { success := true,
        perfScore := categoryScore cats.performanceScore,
        seoScore := categoryScore cats.seoScore,
        lcp := jsOrStr lh.lcp "N/A", cls := jsOrStr lh.cls "N/A",
        fcp := jsOrStr lh.fcp "N/A",
        techStack := lh.stackPacks.getD [],
        bugs := [], error := none, isFallback := none } := by
    unfold extractPsi
    simp only [hd, hc]
  rw [he]
  refine ⟨rfl, ?_, ?_⟩
  · intro hperf
    have hm1 : categoryScore cats.performanceScore = -1 := by
      rcases hperf with h | h <;> simp [categoryScore, h]
    refine ⟨hm1, ?_, ?_⟩
    · unfold mobileSpeedSignal
      dsimp only
      rw [hm1]
      rfl
    · simp [constructSignals]
  · intro hseo
    have hm1 : categoryScore cats.seoScore = -1 := by
      rcases hseo with h | h <;> simp [categoryScore, h]
    refine ⟨hm1, ?_, ?_⟩
    · unfold seoScoreSignal
      dsimp only
      rw [hm1]
      rfl
    · simp [constructSignals]

/-- C10 witness: a keyed, successful crawl whose performance score is the
float 0 and whose SEO category has no score. -/
theorem claim_C10_witness :
    (fetchPageSpeedData "k" (.ok psiDataZero) (.fthrow "y")).1.success = true ∧
    (fetchPageSpeedData "k" (.ok psiDataZero) (.fthrow "y")).1.perfScore = -1 ∧
    (fetchPageSpeedData "k" (.ok psiDataZero) (.fthrow "y")).1.seoScore = -1 := by
  have h := claim_C10 "k" (.ok psiDataZero) (.fthrow "y") psiDataZero
    (psiDataZero.lighthouseResult.getD
      ⟨none, none, none, none, none⟩)
    ⟨some 0, none⟩ (by decide) rfl rfl rfl
  exact ⟨h.1, (h.2.1 (Or.inr rfl)).1, (h.2.2 (Or.inl rfl)).1⟩

end Brandscore
